import Mathlib

/-!
# Verification of the tripletex-go authentication and field-builder core

A shallow embedding of the hand-written core of the `tripletex-go`
repository: the session-token authentication lifecycle (`src/auth.go`,
`src/client.go`, and the older variant in `src/pkg/tripletex/authentication.go`)
and the hierarchical field-selection builder (`fieldsToString`, the
`fieldsBuilderStruct` fluent API and the `fields` package's identical
`builderStruct`).

Modelling conventions:
* Wall-clock instants are integers counting seconds since the Unix epoch
  (Go `time.Time` in UTC; sub-second precision is irrelevant to every
  property considered, and the calendar functions below are used on
  instants at or after the epoch, which covers every reachable use).
* Go `time.Duration` values are integers (seconds).
* The HTTP transport, body reading and JSON decoding are an oracle value
  (`HttpWorld`) enumerating exactly the outcomes the Go code branches on.
* The generated type `ResponseWrapperSessionToken` (produced by
  oapi-codegen with the nullable overlay, so every property is a pointer)
  is embedded with `Option` for each pointer field, matching the pointer
  dereferences performed in `src/auth.go`.
* Go `nil`-pointer dereference (a runtime panic) is modelled as an
  explicit `nilPanic` outcome, distinct from returned errors.
-/

namespace Tripletex

/-! ## Calendar model: the fragment of Go `time` used by the source

`src/auth.go` and `src/client.go` use: `time.Now()`, `Time.Add`,
`Time.AddDate(0, 1, 0)`, `Time.Sub`, `Time.Before`, `Time.After`,
`Time.Format(time.DateOnly)` and `time.Parse(time.DateOnly, s)` with the
layout `"2006-01-02"` (proleptic Gregorian calendar). -/

def isLeap (y : Nat) : Bool :=
  (y % 4 == 0 && y % 100 != 0) || y % 400 == 0

def yearLen (y : Nat) : Nat :=
  if isLeap y then 366 else 365

def monthLen (y m : Nat) : Nat :=
  if m = 2 then (if isLeap y then 29 else 28)
  else if m = 4 ∨ m = 6 ∨ m = 9 ∨ m = 11 then 30
  else 31

/-- Days contributed by months `1..m-1` of year `y` (so `daysBeforeMonth y 1 = 0`). -/
def daysBeforeMonth (y : Nat) : Nat → Nat
  | 0 => 0
  | 1 => 0
  | m + 1 => daysBeforeMonth y m + monthLen y m

/-- Days from 1970-01-01 to the start of year `y` (for `y ≥ 1970`). -/
def daysBeforeYear : Nat → Nat
  | y + 1 => if y + 1 ≤ 1970 then 0 else daysBeforeYear y + yearLen y
  | 0 => 0

/-- Days since 1970-01-01 of the civil date `(y, m, d)`, accepting a month
up to 13 and a day beyond the month length exactly as Go's `time.Date`
normalisation does (used by `AddDate`). -/
def daysFromCivil (y m d : Nat) : Nat :=
  let y' := if m > 12 then y + 1 else y
  let m' := if m > 12 then m - 12 else m
  daysBeforeYear y' + daysBeforeMonth y' m' + (d - 1)

/-- Recover the year and day-of-year from a day count since the epoch. -/
def findYear (y days fuel : Nat) : Nat × Nat :=
  match fuel with
  | 0 => (y, days)
  | fuel + 1 =>
    if days < yearLen y then (y, days)
    else findYear (y + 1) (days - yearLen y) fuel

/-- Recover the month and day-of-month from a day-of-year. -/
def findMonth (y m days fuel : Nat) : Nat × Nat :=
  match fuel with
  | 0 => (m, days)
  | fuel + 1 =>
    if days < monthLen y m then (m, days)
    else findMonth y (m + 1) (days - monthLen y m) fuel

/-- Civil date `(y, m, d)` of a day count since 1970-01-01. -/
def civilFromDays (days : Nat) : Nat × Nat × Nat :=
  let (y, rest) := findYear 1970 days days
  let (m, d) := findMonth y 1 rest 12
  (y, m, d + 1)

/-- Seconds per day. -/
def secPerDay : Int := 86400

/-- Civil date of an instant (UTC). -/
def dateOfInstant (t : Int) : Nat × Nat × Nat :=
  civilFromDays (t / secPerDay).toNat

/-- Go `t.AddDate(0, 1, 0)`: add one to the month field and renormalise
via `time.Date`, keeping the time of day. -/
def addDateOneMonth (t : Int) : Int :=
  let (y, m, d) := dateOfInstant t
  let sod := t % secPerDay
  (daysFromCivil y (m + 1) d : Int) * secPerDay + sod

def pad2 (n : Nat) : String :=
  if n < 10 then "0" ++ toString n else toString n

def pad4 (n : Nat) : String :=
  if n < 10 then "000" ++ toString n
  else if n < 100 then "00" ++ toString n
  else if n < 1000 then "0" ++ toString n
  else toString n

/-- Go `t.Format(time.DateOnly)`: render the civil date as `YYYY-MM-DD`. -/
def formatDateOnly (t : Int) : String :=
  let (y, m, d) := dateOfInstant t
  pad4 y ++ "-" ++ pad2 m ++ "-" ++ pad2 d

def digitVal (c : Char) : Option Nat :=
  if c.isDigit then some (c.toNat - 48) else none

/-- Go `time.Parse(time.DateOnly, s)`: accept exactly `YYYY-MM-DD` with a
month in `1..12` and a day within the month, yielding the civil date;
any other input is a parse error. -/
def parseDateOnly (s : String) : Option (Nat × Nat × Nat) :=
  match s.data with
  | [y1, y2, y3, y4, c1, m1, m2, c2, d1, d2] =>
    if c1 = '-' ∧ c2 = '-' then
      match digitVal y1, digitVal y2, digitVal y3, digitVal y4,
            digitVal m1, digitVal m2, digitVal d1, digitVal d2 with
      | some a, some b, some c, some e, some f, some g, some h, some i =>
        let y := a * 1000 + b * 100 + c * 10 + e
        let m := f * 10 + g
        let d := h * 10 + i
        if 1 ≤ m ∧ m ≤ 12 ∧ 1 ≤ d ∧ d ≤ monthLen y m then
          some (y, m, d)
        else none
      | _, _, _, _, _, _, _, _ => none
    else none
  | _ => none

/-- The instant (midnight UTC) denoted by a parsed date-only value, as Go's
`time.Parse` produces for the `DateOnly` layout. -/
def instantOfDate : Nat × Nat × Nat → Int
  | (y, m, d) => (daysFromCivil y m d : Int) * secPerDay

/-! ## Data model of the client (`src/client.go`, `src/auth.go`) -/

/-- `Token` of `src/auth.go`: bearer string plus absolute expiry. -/
structure Token where
  expiresAt : Int
  accessToken : String
  deriving Repr, DecidableEq

/-- `Credentials` of `src/client.go`. -/
structure Credentials where
  consumerToken : String
  employeeToken : String
  clientId : Int
  deriving Repr, DecidableEq

/-- The state of `TripletexClient` (`src/client.go`): the generated
`ClientWithResponses` and the `http.Client` carry no state observable by
the properties considered, and are left out. -/
structure TripletexClient where
  token : Option Token
  tokenDuration : Int
  credentials : Credentials
  baseURL : String
  deriving Repr, DecidableEq

/-- The functional options accepted by `New` (`src/client.go`). The
`WithHttpClient` option only swaps the transport, which the model leaves
abstract, so it is a no-op here. -/
inductive ClientOption where
  | withHttpClient
  | withTokenDuration (duration : Int)
  | withBaseURLOption (baseURL : String)
  | withAccountantClient (clientId : Int)
  deriving Repr, DecidableEq

def applyOption (c : TripletexClient) : ClientOption → TripletexClient
  | .withHttpClient => c
  | .withTokenDuration d => { c with tokenDuration := d }
  | .withBaseURLOption u => { c with baseURL := u }
  | .withAccountantClient k => { c with credentials := { c.credentials with clientId := k } }

/-- `New` (`src/client.go`): defaults, then the options in order. `now` is
the `time.Now()` read once at construction; the default token duration is
`now.AddDate(0, 1, 0).Sub(now)`, a fixed duration captured at this moment. -/
def New (credentials : Credentials) (now : Int) (options : List ClientOption) : TripletexClient :=
  let client : TripletexClient :=
    { token := none
      tokenDuration := addDateOneMonth now - now
      credentials := credentials
      baseURL := "https://tripletex.no/v2" }
  options.foldl applyOption client

/-! ## The token-issuance HTTP exchange (`src/auth.go`)

`revalidate` branches on, in order: `http.NewRequest` failing,
`httpClient.Do` failing, the status code, `io.ReadAll` failing,
`json.Unmarshal` failing, and the decoded `ResponseWrapperSessionToken`.
The oracle below enumerates exactly those outcomes. -/

/-- `SessionToken` as generated by oapi-codegen with the nullable overlay:
every property is a pointer, hence `Option`. Only the fields read by
`src/auth.go` are included. -/
structure SessionToken where
  token : Option String
  expirationDate : Option String
  deriving Repr, DecidableEq

/-- Generated `ResponseWrapperSessionToken`: `Value *SessionToken`. -/
structure ResponseWrapperSessionToken where
  value : Option SessionToken
  deriving Repr, DecidableEq

inductive JsonOutcome where
  | malformed
  | parsed (wrapper : ResponseWrapperSessionToken)
  deriving Repr, DecidableEq

inductive BodyOutcome where
  | readError
  | ok (body : JsonOutcome)
  deriving Repr, DecidableEq

inductive HttpWorld where
  | newRequestError
  | doError
  | response (statusCode : Nat) (body : BodyOutcome)
  deriving Repr, DecidableEq

/-- The error classes `revalidate` returns (each a distinct
`fmt.Errorf` message in the source). -/
inductive AuthError where
  | createRequestFailed
  | doRequestFailed
  | statusNotOK (code : Nat)
  | readBodyFailed
  | parseBodyFailed
  | valueEmpty
  | expirationDateEmpty
  | parseExpiresAtFailed (raw : String)
  deriving Repr, DecidableEq

/-- Outcome of `revalidate`: success, a returned error, or a Go runtime
panic from dereferencing a nil pointer. -/
inductive RevalidateResult where
  | ok
  | err (e : AuthError)
  | nilPanic
  deriving Repr, DecidableEq

/-- The request `revalidate` sends to `PUT {baseURL}/token/session/:create`:
its URL and the three query parameters added to it. -/
structure TokenRequest where
  url : String
  consumerToken : String
  employeeToken : String
  expirationDate : String
  deriving Repr, DecidableEq

/-- `revalidate` (`src/auth.go` lines 20–74), translated branch by branch.
Returns the client state after the call, the outcome, and the issuance
request that went out on the wire (`none` when `http.NewRequest` failed).
`now` is the `time.Now()` read at line 22. -/
def revalidate (c : TripletexClient) (now : Int) (w : HttpWorld) :
    TripletexClient × RevalidateResult × Option TokenRequest :=
  let expiresAt := now + c.tokenDuration
  match w with
  | .newRequestError => (c, .err .createRequestFailed, none)
  | .doError =>
    let sent : TokenRequest :=
      { url := c.baseURL ++ "/token/session/:create"
        consumerToken := c.credentials.consumerToken
        employeeToken := c.credentials.employeeToken
        expirationDate := formatDateOnly expiresAt }
    (c, .err .doRequestFailed, some sent)
  | .response statusCode body =>
    let sent : TokenRequest :=
      { url := c.baseURL ++ "/token/session/:create"
        consumerToken := c.credentials.consumerToken
        employeeToken := c.credentials.employeeToken
        expirationDate := formatDateOnly expiresAt }
    if statusCode ≠ 200 then (c, .err (.statusNotOK statusCode), some sent)
    else
      match body with
      | .readError => (c, .err .readBodyFailed, some sent)
      | .ok .malformed => (c, .err .parseBodyFailed, some sent)
      | .ok (.parsed wrapper) =>
        match wrapper.value with
        | none => (c, .err .valueEmpty, some sent)
        | some sessionToken =>
          match sessionToken.expirationDate with
          | none => (c, .err .expirationDateEmpty, some sent)
          | some rawDate =>
            match parseDateOnly rawDate with
            | none => (c, .err (.parseExpiresAtFailed rawDate), some sent)
            | some date =>
              match sessionToken.token with
              | none => (c, .nilPanic, some sent)
              | some bearer =>
                ({ c with token := some { expiresAt := instantOfDate date, accessToken := bearer } },
                 .ok, some sent)

/-- `IsTokenValid` (`src/auth.go` lines 85–90): false with no token,
otherwise `time.Now().Before(token.ExpiresAt)`. -/
def IsTokenValid (c : TripletexClient) (now : Int) : Bool :=
  match c.token with
  | none => false
  | some t => now < t.expiresAt

def GetToken (c : TripletexClient) : Option Token := c.token

def SetToken (c : TripletexClient) (t : Option Token) : TripletexClient :=
  { c with token := t }

/-- `CheckAuth` (`src/auth.go` lines 95–102). The boolean records whether
`revalidate` was invoked (hence whether a network exchange happened). -/
def CheckAuth (c : TripletexClient) (now : Int) (w : HttpWorld) :
    TripletexClient × RevalidateResult × Bool :=
  if IsTokenValid c now then (c, .ok, false)
  else
    let (c', r, _) := revalidate c now w
    (c', r, true)

/-- An outgoing API request, reduced to the only part `interceptAuth`
touches: the Basic credentials set by `SetBasicAuth`. -/
structure Request where
  basicAuth : Option (String × String)
  deriving Repr, DecidableEq

/-- `interceptAuth` (`src/auth.go` lines 109–117): run `CheckAuth`; on
error return it unchanged; on success `SetBasicAuth("0", c.token.AccessToken)`.
The `Nat` counts the `revalidate` invocations performed. -/
def interceptAuth (c : TripletexClient) (now : Int) (w : HttpWorld) (r : Request) :
    TripletexClient × Request × RevalidateResult × Nat :=
  let (c', res, refreshed) := CheckAuth c now w
  let count := if refreshed then 1 else 0
  match res with
  | .err e => (c', r, .err e, count)
  | .nilPanic => (c', r, .nilPanic, count)
  | .ok =>
    match c'.token with
    | none => (c', r, .nilPanic, count)
    | some t => (c', { basicAuth := some ("0", t.accessToken) }, .ok, count)

/-! ## The older variant (`src/pkg/tripletex/authentication.go`) -/

/-- The older `Token` type: `HasExpired` is the only operation a claim
touches; it compares with `time.Now().UTC().After(t.ExpiresAt)` (taking
UTC does not change the instant compared). -/
structure OldToken where
  expiresAt : Int
  token : String
  deriving Repr, DecidableEq

/-- `HasExpired` (`src/pkg/tripletex/authentication.go` lines 92–94). -/
def OldToken.HasExpired (t : OldToken) (now : Int) : Bool :=
  t.expiresAt < now

/-! ## Field-selection builder (`src/client.go` lines 108–270)

Go's `slices.Sort` on `[]string` orders byte-wise over UTF-8, which
coincides with code-point lexicographic order; `charListLe` below is that
order on the character lists underlying Lean strings (written directly so
that it reduces in the kernel). -/

def charListLe : List Char → List Char → Bool
  | [], _ => true
  | _ :: _, [] => false
  | a :: as, b :: bs => if a = b then charListLe as bs else decide (a < b)

def strLe (a b : String) : Bool := charListLe a.data b.data

/-- The relation `slices.Sort` orders by. -/
def strLeR (a b : String) : Prop := strLe a b = true

instance : DecidableRel strLeR := fun a b => inferInstanceAs (Decidable (strLe a b = true))

/-- Ascending sort of a string slice, as `slices.Sort` produces (the
output of any correct ascending sort of values is the same list). -/
def sortStrings (l : List String) : List String := List.insertionSort strLeR l

/-- The `fields` type of `src/client.go` (`map[string]*fields`) as an
association list of entries; a `leaf` entry carries a nil nested map and
a `group` entry a non-nil one.  Go map key uniqueness is maintained by
`mapInsert` below; serialisation sorts, so entry order never shows. -/
inductive Fields where
  | nil : Fields
  | leaf (name : String) (rest : Fields) : Fields
  | group (name : String) (sub : Fields) (rest : Fields) : Fields
  deriving Repr, DecidableEq

/-- The strings appended to `s` in `fieldsToString`'s range loop: the bare
name for a nil value, `name(fieldsToString(*v))` otherwise (the inner
`fieldsToString` call written out so the recursion is structural). -/
def renderEntries : Fields → List String
  | .nil => []
  | .leaf k rest => k :: renderEntries rest
  | .group k sub rest =>
    (k ++ "(" ++ String.intercalate "," (sortStrings (renderEntries sub)) ++ ")") ::
      renderEntries rest

/-- `fieldsToString` (`src/client.go` lines 258–270): render every entry,
`slices.Sort` the rendered strings, `strings.Join` with `","`. -/
def fieldsToString (f : Fields) : String :=
  String.intercalate "," (sortStrings (renderEntries f))

theorem renderEntries_group (k : String) (sub rest : Fields) :
    renderEntries (.group k sub rest) =
      (k ++ "(" ++ fieldsToString sub ++ ")") :: renderEntries rest := rfl

/-- Go map write `m[k] = v`: overwrite the existing binding for `k`, or
add one. (`none` = nil nested map, i.e. leaf.) -/
def mapInsert (k : String) (v : Option Fields) : Fields → Fields
  | .nil =>
    match v with
    | none => .leaf k .nil
    | some s => .group k s .nil
  | .leaf k' rest =>
    if k = k' then
      match v with
      | none => .leaf k rest
      | some s => .group k s rest
    else .leaf k' (mapInsert k v rest)
  | .group k' s' rest =>
    if k = k' then
      match v with
      | none => .leaf k rest
      | some s => .group k s rest
    else .group k' s' (mapInsert k v rest)

/-- `maps.Copy(dst, src)`: write every binding of `src` into `dst`. -/
def mapsCopy (dst : Fields) : Fields → Fields
  | .nil => dst
  | .leaf k rest => mapsCopy (mapInsert k none dst) rest
  | .group k s rest => mapsCopy (mapInsert k (some s) dst) rest

/-! ### Builder instances as a store

`fieldsBuilderStruct` values are mutable and reached through pointers, so
builder instances are modelled as indices into a store holding each
instance's `fields` map.  A nil map and an empty map are both `Fields.nil`
(the lazy `make(fields)` in `All`/`Add`/`Group` is observationally the
allocation of an empty map, and `fieldsToString` renders both to `""`).
Nested maps installed by `Group` are never written through again by any
API call (`Group` always allocates a fresh nested map and `maps.Copy` is
a per-entry copy), so they are plain values here; only the per-instance
top-level map is mutable state. -/

structure BuilderStore where
  builders : List Fields
  deriving Repr, DecidableEq

/-- The store at program start: the package-level singleton
`var FieldsBuilder = &fieldsBuilderStruct{}` (`src/client.go` line 133) is
instance `0`, with a nil `fields` map. -/
def initialStore : BuilderStore := { builders := [.nil] }

def storeGet (st : BuilderStore) (i : Nat) : Fields :=
  st.builders.getD i .nil

def storeSet (st : BuilderStore) (i : Nat) (f : Fields) : BuilderStore :=
  { builders := st.builders.set i f }

/-- `FieldsBuilder.New()`: allocate a fresh builder with an empty map;
returns its index. -/
def storeNew (st : BuilderStore) : BuilderStore × Nat :=
  ({ builders := st.builders ++ [.nil] }, st.builders.length)

/-- The members accepted by `Group(name, f ...any)`: a string, another
builder instance, or a raw `fields` value; anything else falls through
the type switch and is ignored. -/
inductive GroupArg where
  | str (s : String)
  | builderRef (j : Nat)
  | raw (f : Fields)
  | other
  deriving Repr, DecidableEq

/-- The body of `Group`'s loop building `nestedFields`. -/
def groupNested (st : BuilderStore) (args : List GroupArg) : Fields :=
  args.foldl
    (fun acc a =>
      match a with
      | .str s => mapInsert s none acc
      | .builderRef j => mapsCopy acc (storeGet st j)
      | .raw f => mapsCopy acc f
      | .other => acc)
    .nil

/-- The mutating builder calls `Add`, `All`, `Group` (`src/client.go`
lines 157–224), applied to instance `i`. -/
inductive BuilderCall where
  | add (name : String)
  | all
  | group (name : String) (args : List GroupArg)
  deriving Repr, DecidableEq

def applyCall (st : BuilderStore) (i : Nat) : BuilderCall → BuilderStore
  | .add name => storeSet st i (mapInsert name none (storeGet st i))
  | .all => storeSet st i (mapInsert "*" none (storeGet st i))
  | .group name args => storeSet st i (mapInsert name (some (groupNested st args)) (storeGet st i))

/-- `String()` of builder instance `i`. -/
def storeRender (st : BuilderStore) (i : Nat) : String :=
  fieldsToString (storeGet st i)

/-! ## Order facts about the string comparison used by the sort -/

theorem charListLe_total : ∀ a b : List Char, charListLe a b = true ∨ charListLe b a = true
  | [], _ => Or.inl rfl
  | _ :: _, [] => Or.inr rfl
  | a :: as, b :: bs => by
    by_cases hab : a = b
    · subst hab
      simpa [charListLe] using charListLe_total as bs
    · rcases lt_or_gt_of_ne hab with h | h
      · exact Or.inl (by simp [charListLe, hab, h])
      · exact Or.inr (by simp [charListLe, Ne.symm hab, h])

theorem charListLe_trans :
    ∀ a b c : List Char, charListLe a b = true → charListLe b c = true → charListLe a c = true
  | [], _, _, _, _ => rfl
  | _ :: _, [], _, hab, _ => by simp [charListLe] at hab
  | _ :: _, _ :: _, [], _, hbc => by simp [charListLe] at hbc
  | a :: as, b :: bs, c :: cs, hab, hbc => by
    by_cases h1 : a = b <;> by_cases h2 : b = c
    · subst h1; subst h2
      simp only [charListLe, if_pos rfl] at hab hbc ⊢
      exact charListLe_trans as bs cs hab hbc
    · subst h1
      simpa [charListLe, h2] using hbc
    · subst h2
      simpa [charListLe, h1] using hab
    · simp only [charListLe, if_neg h1, decide_eq_true_eq] at hab
      simp only [charListLe, if_neg h2, decide_eq_true_eq] at hbc
      have hac : a < c := lt_trans hab hbc
      simp [charListLe, ne_of_lt hac, hac]

theorem charListLe_antisymm :
    ∀ a b : List Char, charListLe a b = true → charListLe b a = true → a = b
  | [], [], _, _ => rfl
  | [], _ :: _, _, hba => by simp [charListLe] at hba
  | _ :: _, [], hab, _ => by simp [charListLe] at hab
  | a :: as, b :: bs, hab, hba => by
    by_cases h : a = b
    · subst h
      simp only [charListLe, if_pos rfl] at hab hba
      exact congrArg _ (charListLe_antisymm as bs hab hba)
    · simp only [charListLe, if_neg h, decide_eq_true_eq] at hab
      simp only [charListLe, if_neg (Ne.symm h), decide_eq_true_eq] at hba
      exact absurd hba (asymm hab)

instance : IsTotal String strLeR :=
  ⟨fun a b => charListLe_total a.data b.data⟩

instance : IsTrans String strLeR :=
  ⟨fun a b c => charListLe_trans a.data b.data c.data⟩

instance : IsAntisymm String strLeR :=
  ⟨fun a b hab hba => String.ext (charListLe_antisymm a.data b.data hab hba)⟩

theorem sortStrings_sorted (l : List String) : List.Sorted strLeR (sortStrings l) :=
  List.sorted_insertionSort strLeR l

theorem sortStrings_perm (l : List String) : (sortStrings l).Perm l :=
  List.perm_insertionSort strLeR l

/-- Sorting is invariant under permutation of the input: the model's
justification for treating the nondeterministic Go map iteration order as
irrelevant to `fieldsToString`'s output. -/
theorem sortStrings_eq_of_perm {l l' : List String} (h : l.Perm l') :
    sortStrings l = sortStrings l' :=
  List.eq_of_perm_of_sorted
    (((sortStrings_perm l).trans h).trans (sortStrings_perm l').symm)
    (sortStrings_sorted l) (sortStrings_sorted l')

/-! ## Logical equality of field trees

Two `Fields` values describe the same logical Go map tree when, at every
level, their entry sequences are permutations of one another with
logically equal nested subtrees — the entry sequence of the embedding is
an artefact, since a Go map has no entry order.  `FPerm` is that relation,
presented with head-swap generators in the style of `List.Perm`. -/

inductive FPerm : Fields → Fields → Prop where
  | nil : FPerm .nil .nil
  | leafCons (k : String) {t t' : Fields} :
      FPerm t t' → FPerm (.leaf k t) (.leaf k t')
  | groupCons (k : String) {s s' t t' : Fields} :
      FPerm s s' → FPerm t t' → FPerm (.group k s t) (.group k s' t')
  | swapLL (k₁ k₂ : String) (t : Fields) :
      FPerm (.leaf k₁ (.leaf k₂ t)) (.leaf k₂ (.leaf k₁ t))
  | swapLG (k₁ k₂ : String) (s t : Fields) :
      FPerm (.leaf k₁ (.group k₂ s t)) (.group k₂ s (.leaf k₁ t))
  | swapGL (k₁ k₂ : String) (s t : Fields) :
      FPerm (.group k₁ s (.leaf k₂ t)) (.leaf k₂ (.group k₁ s t))
  | swapGG (k₁ k₂ : String) (s₁ s₂ t : Fields) :
      FPerm (.group k₁ s₁ (.group k₂ s₂ t)) (.group k₂ s₂ (.group k₁ s₁ t))
  | trans {a b c : Fields} : FPerm a b → FPerm b c → FPerm a c

theorem renderEntries_perm_of_fperm {f g : Fields} (h : FPerm f g) :
    (renderEntries f).Perm (renderEntries g) := by
  induction h with
  | nil => exact List.Perm.refl _
  | leafCons k _ ih => exact ih.cons k
  | groupCons k _ _ ihs iht =>
    rw [renderEntries_group, renderEntries_group]
    have hsub : fieldsToString _ = fieldsToString _ :=
      congrArg (String.intercalate ",") (sortStrings_eq_of_perm ihs)
    rw [hsub]
    exact iht.cons _
  | swapLL k₁ k₂ t => exact List.Perm.swap _ _ _
  | swapLG k₁ k₂ s t => exact List.Perm.swap _ _ _
  | swapGL k₁ k₂ s t => exact List.Perm.swap _ _ _
  | swapGG k₁ k₂ s₁ s₂ t => exact List.Perm.swap _ _ _
  | trans _ _ ih₁ ih₂ => exact ih₁.trans ih₂

/-! ## Serialisation as worded by the spec, for comparison

The spec says entries at each level are sorted "lexicographically by
name".  The following definitions follow those words: sort the entries of
every level by field name, then render in that order and join. -/

/-- Insert an entry into a by-name-sorted entry sequence. -/
def insertByName (k : String) (v : Option Fields) : Fields → Fields
  | .nil =>
    match v with
    | none => .leaf k .nil
    | some s => .group k s .nil
  | .leaf k' rest =>
    if strLe k k' then
      match v with
      | none => .leaf k (.leaf k' rest)
      | some s => .group k s (.leaf k' rest)
    else .leaf k' (insertByName k v rest)
  | .group k' s' rest =>
    if strLe k k' then
      match v with
      | none => .leaf k (.group k' s' rest)
      | some s => .group k s (.group k' s' rest)
    else .group k' s' (insertByName k v rest)

/-- Sort every level of a field tree by field name. -/
def sortFieldsByName : Fields → Fields
  | .nil => .nil
  | .leaf k rest => insertByName k none (sortFieldsByName rest)
  | .group k s rest => insertByName k (some (sortFieldsByName s)) (sortFieldsByName rest)

/-- Render an entry sequence in the order given. -/
def renderInOrder : Fields → List String
  | .nil => []
  | .leaf k rest => k :: renderInOrder rest
  | .group k s rest =>
    (k ++ "(" ++ String.intercalate "," (renderInOrder s) ++ ")") :: renderInOrder rest

/-- Serialisation modelled from the spec's words: each level's entries
ordered lexicographically by field name, leaves as bare names, subtrees
as `name(...)`, joined by commas. -/
def specFieldsToString (f : Fields) : String :=
  String.intercalate "," (renderInOrder (sortFieldsByName f))

/-! ## Concrete inputs used by counterexamples and witnesses -/

def creds0 : Credentials := { consumerToken := "ct", employeeToken := "et", clientId := 0 }

/-- 2025-01-01T00:00:00Z. -/
def jan1of2025 : Int := (daysFromCivil 2025 1 1 : Int) * secPerDay

/-- 2025-02-01T00:00:00Z. -/
def feb1of2025 : Int := (daysFromCivil 2025 2 1 : Int) * secPerDay

/-- An HTTP 200 exchange whose body carries a bearer token and a far-future
expiration date. -/
def goodWorld : HttpWorld :=
  .response 200 (.ok (.parsed { value := some { token := some "tok", expirationDate := some "2030-01-05" } }))

/-- An HTTP 200 exchange whose body carries a bearer token and an
expiration date in the past. -/
def staleWorld : HttpWorld :=
  .response 200 (.ok (.parsed { value := some { token := some "tok", expirationDate := some "2020-01-01" } }))

/-- An HTTP 200 exchange whose body has a wrapper value and a parseable
expiration date but no token field (`"value": ⦃"expirationDate": ...⦄`). -/
def noTokenWorld : HttpWorld :=
  .response 200 (.ok (.parsed { value := some { token := none, expirationDate := some "2030-01-05" } }))

/-- A client holding no token. -/
def clientNoToken : TripletexClient :=
  { token := none, tokenDuration := 0, credentials := creds0, baseURL := "" }

/-- A client holding a token that expires at instant 100. -/
def clientTok100 : TripletexClient :=
  { token := some { expiresAt := 100, accessToken := "tok" },
    tokenDuration := 0, credentials := creds0, baseURL := "" }

def oldTok100 : OldToken := { expiresAt := 100, token := "tok" }

/-- A tree holding a leaf named `a!` and a group named `a`: the two orders
(by rendered entry vs. by field name) disagree on it, because the byte
`!` sorts before `(`. -/
def mixedNameTree : Fields := .leaf "a!" (.group "a" (.leaf "x" .nil) .nil)

/-- A store with three builder instances, the third holding a leaf. -/
def threeBuilderStore : BuilderStore := { builders := [.nil, .nil, .leaf "x" .nil] }

/-! ## Helper lemmas -/

theorem isTokenValid_iff (c : TripletexClient) (now : Int) :
    IsTokenValid c now = true ↔ ∃ t, c.token = some t ∧ now < t.expiresAt := by
  unfold IsTokenValid
  cases ht : c.token with
  | none => simp
  | some t => simp [ht]

/-- Every outcome of `revalidate` other than full success leaves the
client state exactly as it was. -/
theorem revalidate_state_of_not_ok (c : TripletexClient) (now : Int) (w : HttpWorld)
    (h : (revalidate c now w).2.1 ≠ RevalidateResult.ok) : (revalidate c now w).1 = c := by
  cases w with
  | newRequestError => rfl
  | doError => rfl
  | response statusCode body =>
    by_cases hc : statusCode = 200
    · subst hc
      cases body with
      | readError => simp [revalidate]
      | ok j =>
        cases j with
        | malformed => simp [revalidate]
        | parsed wrapper =>
          obtain ⟨value⟩ := wrapper
          cases value with
          | none => simp [revalidate]
          | some st =>
            obtain ⟨tok, expd⟩ := st
            cases expd with
            | none => simp [revalidate]
            | some ds =>
              cases hp : parseDateOnly ds with
              | none => simp [revalidate, hp]
              | some date =>
                cases tok with
                | none => simp [revalidate, hp]
                | some bearer => exact absurd (by simp [revalidate, hp]) h
    · simp [revalidate, hc]

/-- On full success the only state change is the freshly installed token. -/
theorem revalidate_ok_token (c : TripletexClient) (now : Int) (w : HttpWorld)
    (h : (revalidate c now w).2.1 = RevalidateResult.ok) :
    ∃ t : Token, (revalidate c now w).1 = { c with token := some t } := by
  cases w with
  | newRequestError => exact absurd h (by simp [revalidate])
  | doError => exact absurd h (by simp [revalidate])
  | response statusCode body =>
    by_cases hc : statusCode = 200
    · subst hc
      cases body with
      | readError => exact absurd h (by simp [revalidate])
      | ok j =>
        cases j with
        | malformed => exact absurd h (by simp [revalidate])
        | parsed wrapper =>
          obtain ⟨value⟩ := wrapper
          cases value with
          | none => exact absurd h (by simp [revalidate])
          | some st =>
            obtain ⟨tok, expd⟩ := st
            cases expd with
            | none => exact absurd h (by simp [revalidate])
            | some ds =>
              cases hp : parseDateOnly ds with
              | none => exact absurd h (by simp [revalidate, hp])
              | some date =>
                cases tok with
                | none => exact absurd h (by simp [revalidate, hp])
                | some bearer =>
                  refine ⟨{ expiresAt := instantOfDate date, accessToken := bearer }, ?_⟩
                  simp [revalidate, hp]
    · exact absurd h (by simp [revalidate, hc])

/-- The issuance request, whenever one goes out, carries
`expirationDate = Format(DateOnly, now + tokenDuration)`. -/
theorem revalidate_sent_expiration (c : TripletexClient) (now : Int) (w : HttpWorld)
    (req : TokenRequest) (h : (revalidate c now w).2.2 = some req) :
    req.expirationDate = formatDateOnly (now + c.tokenDuration) := by
  cases w with
  | newRequestError => simp [revalidate] at h
  | doError => simp [revalidate] at h; simp [← h]
  | response statusCode body =>
    by_cases hc : statusCode = 200
    · subst hc
      cases body with
      | readError => simp [revalidate] at h; simp [← h]
      | ok j =>
        cases j with
        | malformed => simp [revalidate] at h; simp [← h]
        | parsed wrapper =>
          obtain ⟨value⟩ := wrapper
          cases value with
          | none => simp [revalidate] at h; simp [← h]
          | some st =>
            obtain ⟨tok, expd⟩ := st
            cases expd with
            | none => simp [revalidate] at h; simp [← h]
            | some ds =>
              cases hp : parseDateOnly ds with
              | none => simp [revalidate, hp] at h; simp [← h]
              | some date =>
                cases tok with
                | none => simp [revalidate, hp] at h; simp [← h]
                | some bearer => simp [revalidate, hp] at h; simp [← h]
    · simp [revalidate, hc] at h; simp [← h]

/-! ## Claim C1 -/

/-- Claim C1, counterexample. At the exact expiry instant (`now = 100 =
expiresAt`) the token is not valid (`IsTokenValid` is false, no strict
inequality), yet `HasExpired` of the older variant is also false, because
it tests `time.Now().After(ExpiresAt)`, a strict inequality the other
way.  This refutes "HasExpired true iff the token is not valid". -/
theorem c1_hasExpired_boundary_counterexample :
    IsTokenValid clientTok100 100 = false ∧
    OldToken.HasExpired oldTok100 100 = false := by decide

/-- Claim C1, amended: `IsTokenValid` is false with no token, and with a
token it is true iff `now` is strictly before the expiry (false at and
after the expiry instant); `HasExpired` is true iff `now` is strictly
AFTER the expiry, so it agrees with "not valid" except at the exact
expiry instant, where the token is already invalid but not yet expired. -/
theorem c1_validity_boundary_amended :
    (∀ (c : TripletexClient) (now : Int), c.token = none → IsTokenValid c now = false)
    ∧ (∀ (c : TripletexClient) (t : Token) (now : Int), c.token = some t →
        (IsTokenValid c now = true ↔ now < t.expiresAt))
    ∧ (∀ (t : OldToken) (now : Int), t.HasExpired now = true ↔ t.expiresAt < now) := by
  refine ⟨fun c now h => ?_, fun c t now h => ?_, fun t now => ?_⟩
  · simp [IsTokenValid, h]
  · simp [IsTokenValid, h]
  · simp [OldToken.HasExpired]

/-- Claim C1, witness for the amended theorem at concrete inputs. -/
theorem c1_validity_boundary_amended_witness :
    IsTokenValid clientNoToken 5 = false
    ∧ (IsTokenValid clientTok100 5 = true ↔ (5 : Int) < 100)
    ∧ (OldToken.HasExpired oldTok100 5 = true ↔ (100 : Int) < 5) :=
  ⟨c1_validity_boundary_amended.1 clientNoToken 5 rfl,
   c1_validity_boundary_amended.2.1 clientTok100 { expiresAt := 100, accessToken := "tok" } 5 rfl,
   c1_validity_boundary_amended.2.2 oldTok100 5⟩

/-! ## Claim C2 -/

/-- Claim C2: `revalidate` is atomic on failure.  Whenever the outcome is
not full success the client state (its held token included) is exactly
what it was before the call, and each of the enumerated failing outcomes
yields its distinct typed error: request-construction failure, transport
failure, any non-200 status, unreadable body, unparsable body, missing
wrapper value, missing expirationDate, malformed expirationDate. -/
theorem c2_refresh_atomic_on_failure :
    (∀ (c : TripletexClient) (now : Int) (w : HttpWorld),
        (revalidate c now w).2.1 ≠ RevalidateResult.ok → (revalidate c now w).1 = c)
    ∧ (∀ (c : TripletexClient) (now : Int),
        (revalidate c now .newRequestError).2.1 = .err .createRequestFailed)
    ∧ (∀ (c : TripletexClient) (now : Int),
        (revalidate c now .doError).2.1 = .err .doRequestFailed)
    ∧ (∀ (c : TripletexClient) (now : Int) (code : Nat) (body : BodyOutcome), code ≠ 200 →
        (revalidate c now (.response code body)).2.1 = .err (.statusNotOK code))
    ∧ (∀ (c : TripletexClient) (now : Int),
        (revalidate c now (.response 200 .readError)).2.1 = .err .readBodyFailed)
    ∧ (∀ (c : TripletexClient) (now : Int),
        (revalidate c now (.response 200 (.ok .malformed))).2.1 = .err .parseBodyFailed)
    ∧ (∀ (c : TripletexClient) (now : Int),
        (revalidate c now (.response 200 (.ok (.parsed { value := none })))).2.1 =
          .err .valueEmpty)
    ∧ (∀ (c : TripletexClient) (now : Int) (tok : Option String),
        (revalidate c now
            (.response 200 (.ok (.parsed { value := some { token := tok, expirationDate := none } })))).2.1 =
          .err .expirationDateEmpty)
    ∧ (∀ (c : TripletexClient) (now : Int) (tok : Option String) (ds : String),
        parseDateOnly ds = none →
        (revalidate c now
            (.response 200 (.ok (.parsed { value := some { token := tok, expirationDate := some ds } })))).2.1 =
          .err (.parseExpiresAtFailed ds)) := by
  refine ⟨revalidate_state_of_not_ok, fun c now => rfl, fun c now => rfl,
    fun c now code body h => ?_, fun c now => ?_, fun c now => ?_, fun c now => ?_,
    fun c now tok => ?_, fun c now tok ds h => ?_⟩
  · simp [revalidate, h]
  · simp [revalidate]
  · simp [revalidate]
  · simp [revalidate]
  · cases tok <;> simp [revalidate]
  · cases tok <;> simp [revalidate, h]

/-- Claim C2, witness: a previously cached token survives an HTTP 422
response unchanged, with the corresponding typed error. -/
theorem c2_refresh_atomic_on_failure_witness :
    (revalidate clientTok100 200 (.response 422 .readError)).1 = clientTok100
    ∧ (revalidate clientTok100 200 (.response 422 .readError)).2.1 =
        .err (.statusNotOK 422) :=
  ⟨c2_refresh_atomic_on_failure.1 clientTok100 200 (.response 422 .readError) (by decide),
   c2_refresh_atomic_on_failure.2.2.2.1 clientTok100 200 422 .readError (by decide)⟩

/-! ## Claim C3 -/

/-- Claim C3: `CheckAuth` invokes `revalidate` if and only if
`IsTokenValid` is false; with a valid token it is a state-preserving
no-op with no network exchange, and `interceptAuth` performs exactly one
refresh call when the token is invalid or absent and none otherwise. -/
theorem c3_checkAuth_refreshes_iff_invalid :
    (∀ (c : TripletexClient) (now : Int) (w : HttpWorld),
        (CheckAuth c now w).2.2 = !(IsTokenValid c now))
    ∧ (∀ (c : TripletexClient) (now : Int) (w : HttpWorld), IsTokenValid c now = true →
        CheckAuth c now w = (c, RevalidateResult.ok, false))
    ∧ (∀ (c : TripletexClient) (now : Int) (w : HttpWorld) (r : Request),
        (interceptAuth c now w r).2.2.2 = if IsTokenValid c now then 0 else 1) := by
  refine ⟨fun c now w => ?_, fun c now w h => ?_, fun c now w r => ?_⟩
  · by_cases h : IsTokenValid c now <;> simp [CheckAuth, h]
  · simp [CheckAuth, h]
  · by_cases h : IsTokenValid c now
    · obtain ⟨t, ht, _⟩ := (isTokenValid_iff c now).mp h
      simp [interceptAuth, CheckAuth, h, ht]
    · rcases hr : revalidate c now w with ⟨c', res, sent⟩
      cases res with
      | ok =>
        cases ht : c'.token with
        | none => simp [interceptAuth, CheckAuth, h, hr, ht]
        | some t => simp [interceptAuth, CheckAuth, h, hr, ht]
      | err e => simp [interceptAuth, CheckAuth, h, hr]
      | nilPanic => simp [interceptAuth, CheckAuth, h, hr]

/-- Claim C3, witness: with a valid cached token, `CheckAuth` is a no-op
performing no refresh. -/
theorem c3_checkAuth_refreshes_iff_invalid_witness :
    CheckAuth clientTok100 5 .doError = (clientTok100, RevalidateResult.ok, false) :=
  c3_checkAuth_refreshes_iff_invalid.2.1 clientTok100 5 .doError (by decide)

/-! ## Claim C4 -/

/-- Claim C4: on success, `interceptAuth` attaches HTTP Basic credentials
with exactly the literal username "0" and the then-held token's bearer
string as the password — for every client state, in particular for any
client constructed with `WithAccountantClient` (whose `clientId` is never
read by `interceptAuth`) — and on failure the request is untouched. -/
theorem c4_basic_auth_username_zero :
    ∀ (c : TripletexClient) (now : Int) (w : HttpWorld) (r : Request),
      ((interceptAuth c now w r).2.2.1 = RevalidateResult.ok →
        ∃ t : Token, (interceptAuth c now w r).1.token = some t ∧
          (interceptAuth c now w r).2.1.basicAuth = some ("0", t.accessToken))
      ∧ ((interceptAuth c now w r).2.2.1 ≠ RevalidateResult.ok →
          (interceptAuth c now w r).2.1 = r) := by
  intro c now w r
  by_cases h : IsTokenValid c now
  · obtain ⟨t, ht, _⟩ := (isTokenValid_iff c now).mp h
    constructor
    · intro _
      exact ⟨t, by simp [interceptAuth, CheckAuth, h, ht]⟩
    · intro hno
      exact absurd (by simp [interceptAuth, CheckAuth, h, ht]) hno
  · rcases hr : revalidate c now w with ⟨c', res, sent⟩
    cases res with
    | ok =>
      have hok : (revalidate c now w).2.1 = RevalidateResult.ok := by rw [hr]
      obtain ⟨t, hct⟩ := revalidate_ok_token c now w hok
      rw [hr] at hct
      have ht : c'.token = some t := congrArg TripletexClient.token hct
      constructor
      · intro _
        exact ⟨t, by simp [interceptAuth, CheckAuth, h, hr, ht]⟩
      · intro hno
        exact absurd (by simp [interceptAuth, CheckAuth, h, hr, ht]) hno
    | err e =>
      constructor
      · intro hok
        exact absurd hok.symm (by simp [interceptAuth, CheckAuth, h, hr])
      · intro _
        simp [interceptAuth, CheckAuth, h, hr]
    | nilPanic =>
      constructor
      · intro hok
        exact absurd hok.symm (by simp [interceptAuth, CheckAuth, h, hr])
      · intro _
        simp [interceptAuth, CheckAuth, h, hr]

/-- Claim C4, witness: a client built with the accountant option, through
a successful refresh, gets Basic credentials `("0", "tok")` attached. -/
theorem c4_basic_auth_username_zero_witness :
    ∃ t : Token,
      (interceptAuth (New creds0 jan1of2025 [.withAccountantClient 7]) jan1of2025 goodWorld
          { basicAuth := none }).1.token = some t ∧
      (interceptAuth (New creds0 jan1of2025 [.withAccountantClient 7]) jan1of2025 goodWorld
          { basicAuth := none }).2.1.basicAuth = some ("0", t.accessToken) :=
  (c4_basic_auth_username_zero (New creds0 jan1of2025 [.withAccountantClient 7]) jan1of2025
    goodWorld { basicAuth := none }).1 (by decide)

/-! ## Claim C5 -/

/-- Claim C5, counterexample. A client constructed on 2025-01-01 with the
default configuration captures a fixed duration of 31 days (one January).
A refresh on 2025-02-01 therefore requests expiry `2025-03-04`, while one
calendar month from the moment of that refresh call is `2025-03-01`: the
default is NOT calendar arithmetic at refresh time. -/
theorem c5_calendar_month_counterexample :
    (revalidate (New creds0 jan1of2025 []) feb1of2025 .doError).2.2 =
      some { url := "https://tripletex.no/v2/token/session/:create",
             consumerToken := "ct", employeeToken := "et",
             expirationDate := "2025-03-04" }
    ∧ formatDateOnly (addDateOneMonth feb1of2025) = "2025-03-01" := by decide

/-- Claim C5, amended: every issuance request carries a desired expiry of
`now + tokenDuration` (formatted date-only), where `now` is read at the
refresh call; with the default configuration `tokenDuration` is the fixed
span of one calendar month measured at CONSTRUCTION time, so the default
desired expiry is one calendar month ahead only when refresh happens at
the construction moment, not in general. -/
theorem c5_expiry_request_amended :
    (∀ (c : TripletexClient) (now : Int) (w : HttpWorld) (req : TokenRequest),
        (revalidate c now w).2.2 = some req →
        req.expirationDate = formatDateOnly (now + c.tokenDuration))
    ∧ (∀ (creds : Credentials) (now : Int),
        (New creds now []).tokenDuration = addDateOneMonth now - now) :=
  ⟨revalidate_sent_expiration, fun _ _ => rfl⟩

/-- Claim C5, witness: the amended theorem evaluated at the concrete
refresh of the counterexample. -/
theorem c5_expiry_request_amended_witness :
    ({ url := "https://tripletex.no/v2/token/session/:create",
       consumerToken := "ct", employeeToken := "et",
       expirationDate := "2025-03-04" } : TokenRequest).expirationDate =
      formatDateOnly (feb1of2025 + (New creds0 jan1of2025 []).tokenDuration) :=
  c5_expiry_request_amended.1 (New creds0 jan1of2025 []) feb1of2025 .doError
    { url := "https://tripletex.no/v2/token/session/:create",
      consumerToken := "ct", employeeToken := "et", expirationDate := "2025-03-04" }
    (by decide)

/-! ## Claim C6 -/

/-- Claim C6, counterexample. `revalidate` never checks that the parsed
expiry lies in the future: a 200 response carrying expirationDate
`2020-01-01` succeeds (returns nil) on 2025-01-01, yet `IsTokenValid`
evaluated immediately afterwards is false. -/
theorem c6_valid_after_refresh_counterexample :
    (revalidate (New creds0 jan1of2025 []) jan1of2025 staleWorld).2.1 = RevalidateResult.ok
    ∧ IsTokenValid (revalidate (New creds0 jan1of2025 []) jan1of2025 staleWorld).1
        jan1of2025 = false := by decide

/-- Claim C6, amended: after a successful refresh a token is installed,
and the client reports it valid at every instant strictly before the
installed expiry — in particular immediately after the call whenever the
installed expiry is still in the future, which the code does not check. -/
theorem c6_valid_after_refresh_amended :
    ∀ (c : TripletexClient) (now : Int) (w : HttpWorld),
      (revalidate c now w).2.1 = RevalidateResult.ok →
      (∃ t : Token, (revalidate c now w).1.token = some t)
      ∧ (∀ (t : Token) (s : Int), (revalidate c now w).1.token = some t →
          s < t.expiresAt → IsTokenValid (revalidate c now w).1 s = true) := by
  intro c now w h
  obtain ⟨t, hct⟩ := revalidate_ok_token c now w h
  refine ⟨⟨t, by rw [hct]⟩, fun t' s ht' hs => ?_⟩
  simp [IsTokenValid, ht', hs]

/-- Claim C6, witness: after the successful refresh of `goodWorld` the
token is reported valid on 2025-01-01 (its installed expiry is
2030-01-05). -/
theorem c6_valid_after_refresh_amended_witness :
    IsTokenValid (revalidate (New creds0 jan1of2025 []) jan1of2025 goodWorld).1
      jan1of2025 = true :=
  (c6_valid_after_refresh_amended (New creds0 jan1of2025 []) jan1of2025 goodWorld
      (by decide)).2
    { expiresAt := instantOfDate (2030, 1, 5), accessToken := "tok" } jan1of2025
    (by decide) (by decide)

/-! ## Claim C7 -/

/-- Claim C7, counterexample. `fieldsToString` sorts the RENDERED entry
strings, not the field names: on a level holding the leaf `a!` and the
group `a`, the code emits `a!,a(x)` (the byte `!` sorts before `(`),
while ordering lexicographically by field name would put `a` before `a!`
and emit `a(x),a!`. -/
theorem c7_sort_by_name_counterexample :
    fieldsToString mixedNameTree = "a!,a(x)"
    ∧ specFieldsToString mixedNameTree = "a(x),a!"
    ∧ fieldsToString mixedNameTree ≠ specFieldsToString mixedNameTree := by decide

/-- Claim C7, amended: leaves render as their bare name and groups as
`name(serialized-subtree)`; each level's rendered entries are joined by
single commas with no trailing delimiter after sorting them
lexicographically by the RENDERED ENTRY STRING (which coincides with
by-name order except when a name extends another with a character below
`(` ); the empty tree (and a nil builder map) serializes to `""`. -/
theorem c7_serialization_amended :
    (∀ (k : String) (rest : Fields),
        renderEntries (Fields.leaf k rest) = k :: renderEntries rest)
    ∧ (∀ (k : String) (sub rest : Fields),
        renderEntries (Fields.group k sub rest) =
          (k ++ "(" ++ fieldsToString sub ++ ")") :: renderEntries rest)
    ∧ (∀ f : Fields, ∃ l : List String, l.Perm (renderEntries f) ∧ List.Sorted strLeR l ∧
        fieldsToString f = String.intercalate "," l)
    ∧ fieldsToString Fields.nil = "" :=
  ⟨fun _ _ => rfl, fun k sub rest => renderEntries_group k sub rest,
   fun f => ⟨sortStrings (renderEntries f), sortStrings_perm _, sortStrings_sorted _, rfl⟩,
   rfl⟩

/-! ## Claim C8 -/

/-- Claim C8: serialization is a pure function of the logical tree:
builder states describing the same logical tree of keys and nesting
(entry order being a map artefact, captured by `FPerm`) yield
byte-identical `String()` output, whatever construction produced them. -/
theorem c8_serialization_deterministic :
    ∀ (st st' : BuilderStore) (i j : Nat), FPerm (storeGet st i) (storeGet st' j) →
      storeRender st i = storeRender st' j := by
  intro st st' i j h
  exact congrArg (String.intercalate ",")
    (sortStrings_eq_of_perm (renderEntries_perm_of_fperm h))

/-- Claim C8, witness: `New().Add("name").Add("email")` and
`New().Add("email").Add("name")` (run in two separate stores) produce
permuted trees and the identical output `"email,name"`. -/
theorem c8_serialization_deterministic_witness :
    storeRender (applyCall (applyCall (storeNew initialStore).1 1 (.add "name")) 1 (.add "email")) 1 =
      storeRender (applyCall (applyCall (storeNew initialStore).1 1 (.add "email")) 1 (.add "name")) 1
    ∧ storeRender (applyCall (applyCall (storeNew initialStore).1 1 (.add "name")) 1 (.add "email")) 1 =
        "email,name" :=
  ⟨c8_serialization_deterministic _ _ 1 1 (FPerm.swapLL "name" "email" .nil), by decide⟩

/-! ## Claim C9 -/

/-- Claim C9 names a safety property the code lacks: when an HTTP 200 body
carries a wrapper value whose `expirationDate` is present and parses but
whose `token` field is absent (which the generated nullable type allows),
`revalidate` dereferences the nil `Token` pointer — a runtime panic, not
an installed token and not a typed error. -/
theorem c9_missing_token_nil_deref :
    noTokenWorld =
      .response 200 (.ok (.parsed
        { value := some { token := none, expirationDate := some "2030-01-05" } }))
    ∧ parseDateOnly "2030-01-05" = some (2030, 1, 5)
    ∧ (revalidate (New creds0 jan1of2025 []) jan1of2025 noTokenWorld).2.1 =
        RevalidateResult.nilPanic := by decide

/-! ## Claim C10 -/

/-- Claim C10, counterexample. Calling `Add` directly on the package-level
singleton `FieldsBuilder` writes into the singleton's own map: a later
independent `FieldsBuilder.Add("b").String()` observes the earlier
`Add("a")` and yields `"a,b"` instead of `"b"` — accumulated state. -/
theorem c10_singleton_accumulates_counterexample :
    storeRender (applyCall initialStore 0 (.add "b")) 0 = "b"
    ∧ storeRender (applyCall (applyCall initialStore 0 (.add "a")) 0 (.add "b")) 0 =
        "a,b" := by decide

/-- Claim C10, amended: builder state is instance-local — `Add`/`All`/
`Group` on one instance never change the `String()` output of any other
instance, and `New()` always returns a fresh empty builder — but the
package-level singleton is itself a mutable instance: `Add`/`All`/`Group`
called directly on it accumulate state in it (see the counterexample). -/
theorem c10_instance_isolation_amended :
    (∀ (st : BuilderStore) (i j : Nat) (call : BuilderCall), i ≠ j →
        storeRender (applyCall st i call) j = storeRender st j)
    ∧ (∀ st : BuilderStore, storeRender (storeNew st).1 (storeNew st).2 = "") := by
  constructor
  · intro st i j call h
    have hset : ∀ f : Fields, storeRender (storeSet st i f) j = storeRender st j := by
      intro f
      unfold storeRender storeGet storeSet
      simp [List.getD_eq_getElem?_getD, List.getElem?_set_ne h]
    cases call with
    | add name => exact hset _
    | all => exact hset _
    | group name args => exact hset _
  · intro st
    unfold storeRender storeGet storeNew
    simp only [List.getD_eq_getElem?_getD, List.getElem?_concat_length, Option.getD_some]
    rfl

/-- Claim C10, witness: an `Add` on instance 1 leaves instance 2's output
(`"x"`) unchanged. -/
theorem c10_instance_isolation_amended_witness :
    storeRender (applyCall threeBuilderStore 1 (.add "zzz")) 2 =
      storeRender threeBuilderStore 2
    ∧ storeRender threeBuilderStore 2 = "x" :=
  ⟨c10_instance_isolation_amended.1 threeBuilderStore 1 2 (.add "zzz") (by decide),
   by decide⟩

end Tripletex
